import Mathlib

/-!
Verification of the Anvil region file engine (`src/lib.rs` of the
`anvil-region` crate) against its specification.

The engine is shallowly embedded: the backing stream (`File` / `Cursor`)
becomes an explicit byte-addressed `ByteFile`, the in-memory state of
`AnvilRegion` becomes a structure of its three fields, and each Rust
method becomes a Lean function on that state.  Machine integers are
modelled as `Nat` with explicit `% 2^w` at the points where the source
casts (`as u8`, `as u16`, `as u32`) or where wrap-around can occur
(release-mode wrapping semantics; the spots where a debug build would
instead panic on overflow are noted in comments).  The NBT codec
(`nbt::encode` / `nbt::decode`) is an external collaborator and is
axiomatised as a parameter: an encode function together with decode
functions for the two compression schemes.
-/

namespace AnvilSpec

/-- 2^32, the modulus of `u32` arithmetic. -/
def U32 : Nat := 4294967296

/-- 2^16, the modulus of `u16` arithmetic. -/
def U16 : Nat := 65536

/-- 2^8, the modulus of `u8` arithmetic. -/
def U8 : Nat := 256

/-- `REGION_SECTOR_BYTES_LENGTH`: region sector length in bytes (a `u16`
in the source, value 4096). -/
def REGION_SECTOR_BYTES_LENGTH : Nat := 4096

/-- `CHUNK_MAXIMUM_BYTES_LENGTH = REGION_SECTOR_BYTES_LENGTH as u32 * 256`:
maximum chunk length in bytes (1 MiB). -/
def CHUNK_MAXIMUM_BYTES_LENGTH : Nat := 4096 * 256

/-- `REGION_HEADER_BYTES_LENGTH = 8 * REGION_CHUNKS`: region header length
in bytes (8192). -/
def REGION_HEADER_BYTES_LENGTH : Nat := 8 * 1024

/-- `GZIP_COMPRESSION_TYPE`. -/
def GZIP_COMPRESSION_TYPE : Nat := 1

/-- `ZLIB_COMPRESSION_TYPE`. -/
def ZLIB_COMPRESSION_TYPE : Nat := 2

/-- The seekable byte stream behind a region (`File` or `Cursor<Vec<u8>>`):
`data i` is the byte at offset `i` (bytes at or past `size` are the zeros
a read would never reach), `size` is the stream length. -/
structure ByteFile where
  data : Nat → Nat
  size : Nat

/-- `seek(Start off)` followed by `write_all(bs)`: bytes `[off, off+|bs|)`
are replaced, a seek past the end zero-fills the gap `[size, off)`, and the
length grows to cover the written range (never shrinks). -/
def writeBytes (f : ByteFile) (off : Nat) (bs : List Nat) : ByteFile :=
  { data := fun i =>
      if off ≤ i ∧ i < off + bs.length then bs.getD (i - off) 0
      else if f.size ≤ i ∧ i < off then 0
      else f.data i,
    size := max f.size (off + bs.length) }

/-- `read_u8` at an absolute offset: `UnexpectedEof` (hence `ReadError`)
past the end of the stream. -/
def readByte (f : ByteFile) (off : Nat) : Option Nat :=
  if off < f.size then some (f.data off) else none

/-- `read_exact` of `n` bytes at an absolute offset: errors unless the
whole range is inside the stream. -/
def readBytes (f : ByteFile) (off n : Nat) : Option (List Nat) :=
  if off + n ≤ f.size then some ((List.range n).map fun i => f.data (off + i))
  else none

/-- `read_u32::<BigEndian>` at an absolute offset. -/
def readU32BE (f : ByteFile) (off : Nat) : Option Nat :=
  if off + 4 ≤ f.size then
    some (f.data off * 16777216 + f.data (off + 1) * 65536 +
      f.data (off + 2) * 256 + f.data (off + 3))
  else none

/-- The four big-endian bytes of `n as u32` (the `% 256` of each byte
performs the `as u32` truncation of larger values). -/
def u32BE (n : Nat) : List Nat :=
  [n / 16777216 % 256, n / 65536 % 256, n / 256 % 256, n % 256]

/-- `stream_set_len`: seek to `new_len - 1` and write one zero byte, so
that the stream length becomes (at least) `new_len`. -/
def stream_set_len (f : ByteFile) (newLen : Nat) : ByteFile :=
  writeBytes f (newLen - 1) [0]

/-- `AnvilChunkMetadata`: `sector_index` is a `u32` (24 significant bits
from the header), `sectors` a `u8`, `last_modified_timestamp` a `u32`. -/
structure AnvilChunkMetadata where
  sector_index : Nat
  sectors : Nat
  last_modified_timestamp : Nat
deriving DecidableEq, Repr

instance : Inhabited AnvilChunkMetadata := ⟨⟨0, 0, 0⟩⟩

/-- `AnvilChunkMetadata::is_empty`. -/
def AnvilChunkMetadata.is_empty (m : AnvilChunkMetadata) : Bool :=
  m.sectors = 0

/-- The in-memory region engine: backing stream, the 1024-entry metadata
table (a function; only indices below 1024 are ever used), and the sector
occupancy bitmap (`BitVec` in the source; out-of-range `set`/index panics
in `bitvec`, and every access below stays in range in the states the
theorems use, where `List.set`/`getD` agree with it). -/
structure AnvilRegion where
  file : ByteFile
  chunks_metadata : Nat → AnvilChunkMetadata
  used_sectors : List Bool

/-- `anvil_region::metadata_index` (the source asserts `chunk_x, chunk_z
< 32`; all uses below carry that bound as a hypothesis). -/
def metadata_index (chunk_x chunk_z : Nat) : Nat :=
  chunk_x + chunk_z * 32

/-- Set the `len` bits starting at `start` to `v`, one `set` per index,
exactly as the source's acquire/release `for` loops do. -/
def setRange (bm : List Bool) (start len : Nat) (v : Bool) : List Bool :=
  (List.range len).foldl (fun b i => b.set (start + i) v) bm

/-- `anvil_region::used_sectors`: a fresh bitmap of `total_sectors` bits
with bits 0 and 1 set and each non-empty slot's run set. -/
def build_used_sectors (total_sectors : Nat)
    (chunks_metadata : List AnvilChunkMetadata) : List Bool :=
  chunks_metadata.foldl
    (fun bm m => if m.sectors = 0 then bm else setRange bm m.sector_index m.sectors true)
    (((List.replicate total_sectors false).set 0 true).set 1 true)

/-- `AnvilRegion::read_header`, one slot at a time: offset word at byte
`4*i`, timestamp word at byte `4096 + 4*i`, `sector_index = offset >> 8`,
`sectors = (offset & 0xFF) as u8`.  `new` extends the stream to the header
length before reading, so the reads are always in range. -/
def read_header (f : ByteFile) (i : Nat) : AnvilChunkMetadata :=
  let offset := f.data (4 * i) * 16777216 + f.data (4 * i + 1) * 65536 +
    f.data (4 * i + 2) * 256 + f.data (4 * i + 3)
  let ts := f.data (4096 + 4 * i) * 16777216 + f.data (4096 + 4 * i + 1) * 65536 +
    f.data (4096 + 4 * i + 2) * 256 + f.data (4096 + 4 * i + 3)
  { sector_index := offset / 256, sectors := offset % 256,
    last_modified_timestamp := ts }

/-- `AnvilRegion::new`: extend the stream to the 8 KiB header if shorter,
read the header, and rebuild the bitmap from the metadata
(`total_sectors = stream_len as u32 / 4096`; the cast is value-preserving
for any stream below 4 GiB, which covers every region a 24-bit sector
index with 8-bit counts can address into the bitmap construction). -/
def AnvilRegion.new (f : ByteFile) : AnvilRegion :=
  let f1 := if f.size < REGION_HEADER_BYTES_LENGTH
    then stream_set_len f REGION_HEADER_BYTES_LENGTH else f
  let meta := read_header f1
  let total_sectors := f1.size / 4096
  { file := f1, chunks_metadata := meta,
    used_sectors := build_used_sectors total_sectors ((List.range 1024).map meta) }

/-- `find_place`'s `sectors_required = (chunk_length / REGION_SECTOR_BYTES_LENGTH
as u32) as u8 + 1`: the quotient is truncated to `u8` (`% 256`) and the `+ 1`
is `u8` addition (wrapping in release; a debug build panics when the truncated
quotient is 255). -/
def sectorsRequired (chunk_length : Nat) : Nat :=
  (chunk_length / 4096 % 256 + 1) % 256

/-- The scan of `find_place`'s `for sector_index in 0..total_sectors` loop:
walks the listed indices keeping the running count `sectors_free` of
consecutive clear bits (a `u8`, incremented mod 256), returning
`.inl (sector_index - sectors_free)` at the first index where the count
reaches `sectors_required` (the `u32` subtraction; under the scanned
states sector 0 is set, so it cannot underflow), or `.inr sectors_free`
(the trailing free count) when the loop finishes. -/
def scanGo (bitmap : List Bool) (required : Nat) :
    List Nat → Nat → Sum Nat Nat
  | [], free => .inr free
  | i :: rest, free =>
    if bitmap.getD i false then scanGo bitmap required rest 0
    else
      let free1 := (free + 1) % 256
      if free1 = required then .inl (i - free1)
      else scanGo bitmap required rest free1

/-- `AnvilRegion::find_place`.  Reuse the slot's run when its `sectors`
equals `sectors_required`; otherwise release the old run, scan the bitmap
for a first fit, and if none is found extend the file
(`extend_sectors = sectors_required - sectors_free` in `u8`,
`extend_length = (4096u16 * extend_sectors as u16) as u64`, both wrapping
in release) and push `extend_sectors` set bits. -/
def find_place (r : AnvilRegion) (chunk_x chunk_z chunk_length : Nat) :
    AnvilRegion × AnvilChunkMetadata :=
  let sectors_required := sectorsRequired chunk_length
  let metadata := r.chunks_metadata (metadata_index chunk_x chunk_z)
  if metadata.sectors = sectors_required then (r, metadata)
  else
    let bm1 := setRange r.used_sectors metadata.sector_index metadata.sectors false
    let file_length := r.file.size
    let total_sectors := file_length / 4096
    match scanGo bm1 sectors_required (List.range total_sectors) 0 with
    | .inl put_sector_index =>
      ({ r with used_sectors := setRange bm1 put_sector_index sectors_required true },
       { sector_index := put_sector_index, sectors := sectors_required,
         last_modified_timestamp := 0 })
    | .inr sectors_free =>
      let extend_sectors := (sectors_required + 256 - sectors_free) % 256
      let extend_length := 4096 * extend_sectors % 65536
      ({ r with
          file := stream_set_len r.file (file_length + extend_length)
          used_sectors := bm1 ++ List.replicate extend_sectors true },
       { sector_index := total_sectors - sectors_free, sectors := sectors_required,
         last_modified_timestamp := 0 })

/-- `AnvilRegion::update_metadata`: store the entry in the table and
persist the offset word `(sector_index << 8) | sectors` at byte
`4 * metadata_index` and the timestamp word 4092 bytes after it. -/
def update_metadata (r : AnvilRegion) (chunk_x chunk_z : Nat)
    (m : AnvilChunkMetadata) : AnvilRegion :=
  let idx := metadata_index chunk_x chunk_z
  let f1 := writeBytes r.file (idx * 4) (u32BE (m.sector_index * 256 + m.sectors % 256))
  let f2 := writeBytes f1 (4096 + idx * 4) (u32BE (m.last_modified_timestamp % U32))
  { r with
    file := f2
    chunks_metadata := fun i => if i = idx then m else r.chunks_metadata i }

/-- The external NBT codec (out of scope per the spec): zlib-framed encode
used by the writer, and the two decode functions the reader dispatches on. -/
structure NbtCodec (Tag : Type) where
  encodeZlib : Tag → List Nat
  decodeZlib : List Nat → Option Tag
  decodeGzip : List Nat → Option Tag

/-- `ChunkSaveError`. -/
inductive ChunkSaveError where
  | LengthExceedsMaximum (length : Nat)
  | WriteError
deriving DecidableEq, Repr

/-- `ChunkLoadError` (the `RegionNotFound` case belongs to the folder
provider, not the engine). -/
inductive ChunkLoadError where
  | ChunkNotFound (chunk_x chunk_z : Nat)
  | LengthExceedsMaximum (length maximum_length : Nat)
  | UnsupportedCompressionScheme (compression_scheme : Nat)
  | ReadError
  | TagDecodeError
deriving DecidableEq, Repr

/-- The body of `AnvilRegion::write_chunk` past the length check: allocate
via `find_place`, write the 4-byte length prefix (`buffer.len() as u32`),
the buffer, and `REGION_SECTOR_BYTES_LENGTH - length as u16 %
REGION_SECTOR_BYTES_LENGTH` padding zeros, then stamp and persist the
metadata (`now` is the `SystemTime::now` seconds, truncated `as u32`). -/
def write_chunk_body {Tag : Type} (c : NbtCodec Tag) (r : AnvilRegion)
    (chunk_x chunk_z : Nat) (t : Tag) (now : Nat) : AnvilRegion :=
  let buffer := ZLIB_COMPRESSION_TYPE :: c.encodeZlib t
  let length := (buffer.length + 4) % U32
  let pm := find_place r chunk_x chunk_z length
  let seek_offset := pm.2.sector_index * 4096
  let f1 := writeBytes pm.1.file seek_offset (u32BE buffer.length ++ buffer)
  let padding := 4096 - length % 65536 % 4096
  let f2 := writeBytes f1 (seek_offset + 4 + buffer.length) (List.replicate padding 0)
  update_metadata { pm.1 with file := f2 } chunk_x chunk_z
    { pm.2 with last_modified_timestamp := now % U32 }

/-- `AnvilRegion::write_chunk`: serialize (one zlib compression byte, then
the zlib-compressed tag), reject when `length = (buffer.len() + 4) as u32`
exceeds 1 MiB, otherwise run the body. -/
def write_chunk {Tag : Type} (c : NbtCodec Tag) (r : AnvilRegion)
    (chunk_x chunk_z : Nat) (t : Tag) (now : Nat) :
    Except ChunkSaveError AnvilRegion :=
  let buffer := ZLIB_COMPRESSION_TYPE :: c.encodeZlib t
  let length := (buffer.length + 4) % U32
  if CHUNK_MAXIMUM_BYTES_LENGTH < length then
    .error (.LengthExceedsMaximum length)
  else
    .ok (write_chunk_body c r chunk_x chunk_z t now)

/-- The tail of `AnvilRegion::read_chunk` once the length word has passed
the maximum-length check: read the compression byte, build the
`(length - 1)`-byte buffer, read it and dispatch on the scheme.  The outer
`Option` is the abort layer: `none` models the one input on which the
function reaches no defined result - a length word of 0, whose
`(length - 1) as usize` underflows `u32` arithmetic (a panic under Rust's
checked arithmetic; with release wrapping it becomes an attempted
`2^32 - 1`-byte buffer, the 4 GiB allocation). -/
def read_chunk_data {Tag : Type} (c : NbtCodec Tag) (f : ByteFile)
    (seek_offset length : Nat) : Option (Except ChunkLoadError Tag) :=
  match readByte f (seek_offset + 4) with
  | none => some (.error .ReadError)
  | some compression_scheme =>
    if length = 0 then none
    else
      match readBytes f (seek_offset + 5) (length - 1) with
      | none => some (.error .ReadError)
      | some compressed_buffer =>
        if compression_scheme = GZIP_COMPRESSION_TYPE then
          match c.decodeGzip compressed_buffer with
          | some t => some (.ok t)
          | none => some (.error .TagDecodeError)
        else if compression_scheme = ZLIB_COMPRESSION_TYPE then
          match c.decodeZlib compressed_buffer with
          | some t => some (.ok t)
          | none => some (.error .TagDecodeError)
        else
          some (.error (.UnsupportedCompressionScheme compression_scheme))

/-- `AnvilRegion::read_chunk`: empty-slot check, length word, maximum
length check, then `read_chunk_data`. -/
def read_chunk {Tag : Type} (c : NbtCodec Tag) (r : AnvilRegion)
    (chunk_x chunk_z : Nat) : Option (Except ChunkLoadError Tag) :=
  let metadata := r.chunks_metadata (metadata_index chunk_x chunk_z)
  if metadata.sectors = 0 then some (.error (.ChunkNotFound chunk_x chunk_z))
  else
    let seek_offset := metadata.sector_index * 4096
    let maximum_length := min (metadata.sectors * 4096) CHUNK_MAXIMUM_BYTES_LENGTH
    match readU32BE r.file seek_offset with
    | none => some (.error .ReadError)
    | some length =>
      if maximum_length < length then
        some (.error (.LengthExceedsMaximum length maximum_length))
      else
        read_chunk_data c r.file seek_offset length

/-- `chunk_coords_to_region_coords`: `chunk_x >> 5` on `i32` is the
arithmetic (sign-preserving) right shift, i.e. floor division by 32; for
the positive divisor 32 Euclidean division (`Int.ediv`) is that floor. -/
def chunk_coords_to_region_coords (chunk_x chunk_z : Int) : Int × Int :=
  (chunk_x / 32, chunk_z / 32)

/-- `chunk_coords_inside_region`: `chunk_x & 0x1F` on two's-complement
`i32` is the non-negative residue mod 32 (`Int` `%` is the Euclidean
remainder); the `as u8` cast is value-preserving on `[0, 32)`. -/
def chunk_coords_inside_region (chunk_x chunk_z : Int) : Int × Int :=
  (chunk_x % 32, chunk_z % 32)

/-! ### Region filename parsing -/

/-- Value of a list of decimal digit characters, most significant first. -/
def digitsToNat (l : List Char) : Nat :=
  l.foldl (fun a ch => a * 10 + (ch.toNat - 48)) 0

/-- A bare decimal number token: non-empty, all decimal digits, and no
leading zero except for the single digit `0` itself. -/
def decimalTokenOk (l : List Char) : Bool :=
  !l.isEmpty && l.all Char.isDigit &&
    decide (l.head? ≠ some '0' ∨ l.length = 1)

/-- Modelled from the spec: the module `strict_parse_int` is declared in
`lib.rs` (`mod strict_parse_int;`) but its source file is not under
`src/`.  Per spec section 4.6, `strict_parse_i32` parses a plain signed
decimal: an optional leading `-` only for negatives (so `-0` is
rejected), no `+`, no whitespace, no leading zeros except the single
digit `0`, no other characters, and the value must fit an `i32`
(`-2^31 ≤ v ≤ 2^31 - 1`). -/
def strict_parse_i32 (s : List Char) : Option Int :=
  match s with
  | '-' :: rest =>
    if decimalTokenOk rest ∧ 0 < digitsToNat rest ∧ digitsToNat rest ≤ 2147483648
    then some (-(digitsToNat rest : Int))
    else none
  | _ =>
    if decimalTokenOk s ∧ digitsToNat s < 2147483648
    then some ((digitsToNat s : Int))
    else none

/-- `parse_region_file_name`: split the name on `.` and demand exactly
the tokens `["r", <i32>, <i32>, "mca"]`, with no trailing segments
(a byte-level split; `&str` is valid UTF-8, so no multi-byte character
contains the `.` byte and the character-level split below coincides). -/
def parse_region_file_name (s : List Char) : Option (Int × Int) :=
  match s.splitOn '.' with
  | t0 :: rest0 =>
    if t0 = ['r'] then
      match rest0 with
      | t1 :: rest1 =>
        match strict_parse_i32 t1 with
        | some x =>
          match rest1 with
          | t2 :: rest2 =>
            match strict_parse_i32 t2 with
            | some z =>
              match rest2 with
              | t3 :: rest3 =>
                if t3 = ['m', 'c', 'a'] then
                  if rest3 = [] then some (x, z) else none
                else none
              | [] => none
            | none => none
          | [] => none
        | none => none
      | [] => none
    else none
  | [] => none

/-- The integer tokens of the language claim P7 describes: the regex
`-?(0|[1-9][0-9]*)` (which, unlike the strict parser, admits `-0`) with
the value required to parse as an `i32`. -/
def claimTokenParse (l : List Char) : Option Int :=
  match l with
  | '-' :: rest =>
    if decimalTokenOk rest ∧ digitsToNat rest ≤ 2147483648
    then some (-(digitsToNat rest : Int))
    else none
  | _ =>
    if decimalTokenOk l ∧ digitsToNat l < 2147483648
    then some ((digitsToNat l : Int))
    else none

/-- The claimed language `r\.-?(0|[1-9][0-9]*)\.-?(0|[1-9][0-9]*)\.mca`
with its `(i32, i32)` mapping: exactly the strings splitting on `.` into
`["r", T, T, "mca"]` with both `T` in the claimed token language. -/
def claimed_filename_language (s : List Char) : Option (Int × Int) :=
  match s.splitOn '.' with
  | [t0, t1, t2, t3] =>
    if t0 = ['r'] ∧ t3 = ['m', 'c', 'a'] then
      match claimTokenParse t1, claimTokenParse t2 with
      | some x, some z => some (x, z)
      | _, _ => none
    else none
  | _ => none

/-! ### Concrete instances used by the theorems -/

/-- A codec instance of the axiomatised encode/decode inverse pair: a tag
is a `Nat`, its zlib form is that many zero bytes, and decoding recovers
the byte count.  `decodeZlib (encodeZlib t) = some t` holds for every tag. -/
def natCodec : NbtCodec Nat :=
  { encodeZlib := fun n => List.replicate n 0
    decodeZlib := fun l => some l.length
    decodeGzip := fun _ => none }

/-- The empty backing stream: a fresh region file. -/
def file0 : ByteFile := ⟨fun _ => 0, 0⟩

/-- Bitmap state on which `find_place` must scan: sectors 0 and 1 (the
header) set, sectors 2 and 3 free, file length 4 sectors, no live slots -
the state a region reaches after a chunk's run at sector 2 is released. -/
def rC2 : AnvilRegion :=
  ⟨⟨fun _ => 0, 16384⟩, fun _ => ⟨0, 0, 0⟩, [true, true, false, false]⟩

/-- Region whose slot `(0,0)` claims one sector at index 2 while the
length word stored there is 5000, larger than the 4096-byte cap. -/
def rC7 : AnvilRegion :=
  ⟨⟨fun i => if i = 8194 then 19 else if i = 8195 then 136 else 0, 12288⟩,
   fun _ => ⟨2, 1, 0⟩, [true, true, true]⟩

/-- Region whose slot `(0,0)` claims one sector at index 2 while every
stored byte - in particular the length word - is zero. -/
def rC10 : AnvilRegion :=
  ⟨⟨fun _ => 0, 12288⟩, fun _ => ⟨2, 1, 0⟩, [true, true, true]⟩

/-! ### General lemmas about the write path -/

theorem natCodec_inverse (t : Nat) :
    natCodec.decodeZlib (natCodec.encodeZlib t) = some t := by
  simp only [natCodec, List.length_replicate]

/-- A write whose stored length (`encoded bytes + compression byte +
4-byte prefix`) is within the 1 MiB cap succeeds and returns the body. -/
theorem write_chunk_ok {Tag : Type} (c : NbtCodec Tag) (r : AnvilRegion)
    (x z : Nat) (t : Tag) (now : Nat)
    (h : (c.encodeZlib t).length + 5 ≤ CHUNK_MAXIMUM_BYTES_LENGTH) :
    write_chunk c r x z t now = .ok (write_chunk_body c r x z t now) := by
  have hU : (c.encodeZlib t).length + 5 < U32 := by
    have : CHUNK_MAXIMUM_BYTES_LENGTH < U32 := by decide
    omega
  simp only [write_chunk, List.length_cons, ZLIB_COMPRESSION_TYPE]
  rw [show (c.encodeZlib t).length + 1 + 4 = (c.encodeZlib t).length + 5 by omega,
    Nat.mod_eq_of_lt hU, if_neg (by omega)]

/-- `find_place` never changes the metadata table. -/
theorem find_place_chunks_metadata (r : AnvilRegion) (x z L : Nat) :
    (find_place r x z L).1.chunks_metadata = r.chunks_metadata := by
  simp only [find_place]
  split
  · rfl
  · split <;> rfl

/-- The metadata `find_place` hands back always carries
`sectors = sectors_required`. -/
theorem find_place_sectors (r : AnvilRegion) (x z L : Nat) :
    (find_place r x z L).2.sectors = sectorsRequired L := by
  simp only [find_place]
  split
  · next h => exact h
  · split <;> rfl

/-- When the slot already owns exactly `sectors_required` sectors,
`find_place` reuses it and touches nothing. -/
theorem find_place_reuse (r : AnvilRegion) (x z L : Nat)
    (h : (r.chunks_metadata (metadata_index x z)).sectors = sectorsRequired L) :
    find_place r x z L = (r, r.chunks_metadata (metadata_index x z)) := by
  simp only [find_place]
  rw [if_pos h]

/-- `find_place` reads its region only through the slot's metadata entry,
the bitmap and the stream length: two regions agreeing there produce the
same allocation, bitmap and stream length. -/
theorem find_place_congr (r r' : AnvilRegion) (x z L : Nat)
    (hm : r.chunks_metadata (metadata_index x z) = r'.chunks_metadata (metadata_index x z))
    (hbm : r.used_sectors = r'.used_sectors)
    (hsz : r.file.size = r'.file.size) :
    (find_place r x z L).2 = (find_place r' x z L).2 ∧
    (find_place r x z L).1.used_sectors = (find_place r' x z L).1.used_sectors ∧
    (find_place r x z L).1.file.size = (find_place r' x z L).1.file.size := by
  simp only [find_place]
  rw [hm, hbm, hsz]
  split
  · exact ⟨rfl, hbm, hsz⟩
  · split
    · exact ⟨rfl, rfl, hsz⟩
    · refine ⟨rfl, rfl, ?_⟩
      simp [stream_set_len, writeBytes, hsz]

/-- The written slot's metadata after a write body: the allocation
`find_place` returned, stamped with `now` (truncated `as u32`). -/
theorem write_chunk_body_chunks_metadata_self {Tag : Type} (c : NbtCodec Tag)
    (r : AnvilRegion) (x z : Nat) (t : Tag) (now : Nat) :
    (write_chunk_body c r x z t now).chunks_metadata (metadata_index x z) =
      { (find_place r x z (((c.encodeZlib t).length + 5) % U32)).2 with
          last_modified_timestamp := now % U32 } := by
  show (update_metadata _ x z _).chunks_metadata (metadata_index x z) = _
  rw [show (ZLIB_COMPRESSION_TYPE :: c.encodeZlib t).length + 4
      = (c.encodeZlib t).length + 5 by simp]
  simp only [update_metadata, if_pos]

/-- The bitmap after a write body is exactly the bitmap `find_place`
produced - the payload, padding and header writes do not touch it. -/
theorem write_chunk_body_used_sectors {Tag : Type} (c : NbtCodec Tag)
    (r : AnvilRegion) (x z : Nat) (t : Tag) (now : Nat) :
    (write_chunk_body c r x z t now).used_sectors =
      (find_place r x z (((c.encodeZlib t).length + 5) % U32)).1.used_sectors := by
  show (update_metadata _ x z _).used_sectors = _
  rw [show (ZLIB_COMPRESSION_TYPE :: c.encodeZlib t).length + 4
      = (c.encodeZlib t).length + 5 by simp]
  rfl

/-- The stream length after a write body, as the running maximum over the
allocation's length, the payload write, the padding write and the two
header words. -/
theorem write_chunk_body_size {Tag : Type} (c : NbtCodec Tag)
    (r : AnvilRegion) (x z : Nat) (t : Tag) (now : Nat) :
    (write_chunk_body c r x z t now).file.size =
      max (max (max (max
        (find_place r x z (((c.encodeZlib t).length + 5) % U32)).1.file.size
        ((find_place r x z (((c.encodeZlib t).length + 5) % U32)).2.sector_index *
          4096 + 4 + ((c.encodeZlib t).length + 1)))
        ((find_place r x z (((c.encodeZlib t).length + 5) % U32)).2.sector_index *
          4096 + 4 + ((c.encodeZlib t).length + 1) +
          (4096 - ((c.encodeZlib t).length + 5) % U32 % 65536 % 4096)))
        (metadata_index x z * 4 + 4))
        (4096 + metadata_index x z * 4 + 4) := by
  show (update_metadata _ x z _).file.size = _
  rw [show (ZLIB_COMPRESSION_TYPE :: c.encodeZlib t).length + 4
      = (c.encodeZlib t).length + 5 by simp]
  simp only [update_metadata, writeBytes, u32BE, List.length_append,
    List.length_cons, List.length_replicate]
  simp [ZLIB_COMPRESSION_TYPE]
  omega

/-- `read_chunk` on an empty slot: `ChunkNotFound`. -/
theorem read_chunk_empty {Tag : Type} (c : NbtCodec Tag) (r : AnvilRegion)
    (x z : Nat) (h : (r.chunks_metadata (metadata_index x z)).sectors = 0) :
    read_chunk c r x z = some (.error (.ChunkNotFound x z)) := by
  simp only [read_chunk]
  rw [if_pos h]

/-! ### Claim theorems -/

set_option maxRecDepth 20000

/-- C2: the claim says the scan picks `scan_index - sectors_required + 1`,
the start of the first all-clear window, so that the returned run consists
of previously clear sectors.  On the bitmap `[set, set, clear, clear]`
with `sectors_required = 1` the first clear window starts at sector 2, but
the code's `put_sector_index = sector_index - sectors_free` yields 1: the
run `[1, 2)` is the already-set header sector just before the window. -/
theorem c2_first_fit_off_by_one :
    sectorsRequired 5 = 1 ∧
    rC2.used_sectors.getD 1 false = true ∧
    rC2.used_sectors.getD 2 false = false ∧
    (find_place rC2 0 0 5).2.sector_index = 1 ∧
    (find_place rC2 0 0 5).2.sectors = 1 := by
  decide

/-- C6: `chunk_length = 1044480 = 255 * 4096` passes the cap check
(`1044480 ≤ 1 MiB`), yet `(1044480 / 4096) as u8 + 1` wraps `u8`
arithmetic to 0 (a debug build panics), reserving `0 * 4096` bytes for a
1044480-byte payload; at exactly 1 MiB the `as u8` cast itself truncates
256 to 0 and the result is 1 sector, again far below the payload. -/
theorem c6_sectors_required_wraps :
    1044480 ≤ CHUNK_MAXIMUM_BYTES_LENGTH ∧
    sectorsRequired 1044480 = 0 ∧
    sectorsRequired 1044480 * 4096 < 1044480 ∧
    sectorsRequired CHUNK_MAXIMUM_BYTES_LENGTH = 1 ∧
    sectorsRequired CHUNK_MAXIMUM_BYTES_LENGTH * 4096 < CHUNK_MAXIMUM_BYTES_LENGTH := by
  decide

/-- C7: on a non-empty slot, `read_chunk` fails with
`LengthExceedsMaximum{length, maximum_length}` exactly when the 4-byte
big-endian length word at the slot's offset reads back as some `L`
greater than `cap = min(sector_count * 4096, 1 MiB)`, and the reported
fields are that `L` and that `cap`. -/
theorem c7_length_exceeds_maximum_iff {Tag : Type} (c : NbtCodec Tag)
    (r : AnvilRegion) (x z l cap : Nat) (hx : x < 32) (hz : z < 32)
    (hne : (r.chunks_metadata (metadata_index x z)).sectors ≠ 0) :
    read_chunk c r x z = some (.error (.LengthExceedsMaximum l cap)) ↔
      ∃ L, readU32BE r.file
          ((r.chunks_metadata (metadata_index x z)).sector_index * 4096) = some L ∧
        min ((r.chunks_metadata (metadata_index x z)).sectors * 4096)
          CHUNK_MAXIMUM_BYTES_LENGTH < L ∧
        l = L ∧
        cap = min ((r.chunks_metadata (metadata_index x z)).sectors * 4096)
          CHUNK_MAXIMUM_BYTES_LENGTH := by
  have hData : ∀ off L, read_chunk_data c r.file off L ≠
      some (.error (.LengthExceedsMaximum l cap)) := by
    intro off L
    unfold read_chunk_data
    split
    · simp
    · split
      · simp
      · split
        · simp
        · split
          · split <;> simp
          · split
            · split <;> simp
            · simp
  simp only [read_chunk, if_neg hne]
  split
  · next hRead => simp [hRead]
  · next L hRead =>
    split
    · next hgt =>
      constructor
      · intro hEq
        simp only [Option.some.injEq, Except.error.injEq,
          ChunkLoadError.LengthExceedsMaximum.injEq] at hEq
        exact ⟨L, hRead, hgt, hEq.1.symm, hEq.2.symm⟩
      · rintro ⟨L', hL', _, rfl, rfl⟩
        rw [hRead] at hL'
        simp only [Option.some.injEq] at hL'
        simp [hL']
    · next hle =>
      constructor
      · intro hEq
        exact absurd hEq (hData _ _)
      · rintro ⟨L', hL', hgt, rfl, rfl⟩
        rw [hRead] at hL'
        simp only [Option.some.injEq] at hL'
        subst hL'
        exact absurd hgt hle

theorem c7_length_exceeds_maximum_witness :
    read_chunk natCodec rC7 0 0 =
      some (.error (.LengthExceedsMaximum 5000 4096)) := by
  exact (c7_length_exceeds_maximum_iff natCodec rC7 0 0 5000 4096
      (by decide) (by decide) (by decide)).mpr
    ⟨5000, by decide, by decide, rfl, by decide⟩

/-- C8: splitting an `i32` chunk coordinate with the arithmetic shift
`>> 5` and the mask `& 0x1F` satisfies `region * 32 + local = coord` with
the local offset in `[0, 32)`; in particular chunk `(0, -1)` lands in
region `(0, -1)` at local offset `(0, 31)`. -/
theorem c8_coord_split (cx cz : Int)
    (hx1 : -2147483648 ≤ cx) (hx2 : cx < 2147483648)
    (hz1 : -2147483648 ≤ cz) (hz2 : cz < 2147483648) :
    ((chunk_coords_to_region_coords cx cz).1 * 32 +
        (chunk_coords_inside_region cx cz).1 = cx ∧
      (chunk_coords_to_region_coords cx cz).2 * 32 +
        (chunk_coords_inside_region cx cz).2 = cz ∧
      0 ≤ (chunk_coords_inside_region cx cz).1 ∧
      (chunk_coords_inside_region cx cz).1 < 32 ∧
      0 ≤ (chunk_coords_inside_region cx cz).2 ∧
      (chunk_coords_inside_region cx cz).2 < 32) ∧
    chunk_coords_to_region_coords 0 (-1) = (0, -1) ∧
    chunk_coords_inside_region 0 (-1) = (0, 31) := by
  refine ⟨?_, by decide, by decide⟩
  simp only [chunk_coords_to_region_coords, chunk_coords_inside_region]
  refine ⟨by omega, by omega, by omega, by omega, by omega, by omega⟩

theorem c8_coord_split_witness :
    (chunk_coords_to_region_coords 0 (-1)).1 * 32 +
        (chunk_coords_inside_region 0 (-1)).1 = 0 ∧
      (chunk_coords_to_region_coords 0 (-1)).2 * 32 +
        (chunk_coords_inside_region 0 (-1)).2 = -1 :=
  ⟨(c8_coord_split 0 (-1) (by decide) (by decide) (by decide) (by decide)).1.1,
   (c8_coord_split 0 (-1) (by decide) (by decide) (by decide) (by decide)).1.2.1⟩

/-- C10: a stored length word of 0 passes the maximum-length check
(`0 ≤ cap`), the compression byte is read, and then the buffer size
`(length - 1) as usize` underflows `u32` arithmetic: the function reaches
no defined error - a panic under checked arithmetic, an attempted
`2^32 - 1`-byte (4 GiB) buffer under release wrapping - modelled as the
abort outcome `none`. -/
theorem c10_zero_length_underflow {Tag : Type} (c : NbtCodec Tag)
    (r : AnvilRegion) (x z : Nat) (hx : x < 32) (hz : z < 32)
    (hne : (r.chunks_metadata (metadata_index x z)).sectors ≠ 0)
    (h0 : readU32BE r.file
      ((r.chunks_metadata (metadata_index x z)).sector_index * 4096) = some 0)
    (h5 : (r.chunks_metadata (metadata_index x z)).sector_index * 4096 + 5 ≤
      r.file.size) :
    read_chunk c r x z = none := by
  simp only [read_chunk, if_neg hne, h0]
  rw [if_neg (by omega)]
  unfold read_chunk_data
  rw [show readByte r.file
      ((r.chunks_metadata (metadata_index x z)).sector_index * 4096 + 4) =
      some (r.file.data
        ((r.chunks_metadata (metadata_index x z)).sector_index * 4096 + 4)) from
    if_pos (by omega)]
  simp

theorem c10_zero_length_underflow_witness :
    read_chunk natCodec rC10 0 0 = none :=
  c10_zero_length_underflow natCodec rC10 0 0 (by decide) (by decide)
    (by decide) (by decide) (by decide)

/-- C1: the round trip fails inside the claim's hypothesis.  A tag whose
zlib form is 1044475 bytes has stored length `1044480 = 255 * 4096 <
1 MiB`, so `save_chunk` passes the cap check and reports success - but
`sectors_required` wraps `u8` arithmetic to 0, `find_place` "reuses" the
empty slot's metadata `(0, 0)`, the payload is written over the header,
the slot stays empty, and the subsequent load returns `ChunkNotFound`
instead of the tag (a debug build panics on the same `u8` overflow). -/
theorem c1_roundtrip_bug_eval :
    1044475 + 5 < CHUNK_MAXIMUM_BYTES_LENGTH ∧
    (∀ t, natCodec.decodeZlib (natCodec.encodeZlib t) = some t) ∧
    ∃ r1, write_chunk natCodec (AnvilRegion.new file0) 0 0 1044475 31 = .ok r1 ∧
      read_chunk natCodec r1 0 0 = some (.error (.ChunkNotFound 0 0)) := by
  have hlen : (natCodec.encodeZlib (1044475 : Nat)).length = 1044475 := by
    simp only [natCodec, List.length_replicate]
  have e1 : ((1044475 : Nat) + 5) % U32 = 1044480 := by norm_num [U32]
  have hfp : (find_place (AnvilRegion.new file0) 0 0 1044480).2 = ⟨0, 0, 0⟩ := by
    decide
  have hm : (write_chunk_body natCodec (AnvilRegion.new file0) 0 0 1044475
      31).chunks_metadata (metadata_index 0 0) = ⟨0, 0, 31⟩ := by
    rw [write_chunk_body_chunks_metadata_self, hlen, e1, hfp]
    decide
  exact ⟨by decide, natCodec_inverse,
    _, write_chunk_ok natCodec (AnvilRegion.new file0) 0 0 1044475 31
      (by rw [hlen]; decide),
    read_chunk_empty natCodec _ 0 0 (by rw [hm])⟩

/-- C3: on a fresh region, writing a 2-sector payload to slot `(0,0)` and
then overwriting it with a 1-sector payload makes the allocator's
off-by-one (`put_sector_index = sector_index - sectors_free`) hand out the
run `[1, 2)`: the surviving slot's run contains sector 1, one of the two
header sectors the claim says no run may touch. -/
theorem c3_run_overlaps_header_eval :
    ∃ r1 r2,
      write_chunk natCodec (AnvilRegion.new file0) 0 0 5000 11 = .ok r1 ∧
      write_chunk natCodec r1 0 0 0 12 = .ok r2 ∧
      r2.chunks_metadata (metadata_index 0 0) = ⟨1, 1, 12⟩ := by
  have hlen1 : (natCodec.encodeZlib (5000 : Nat)).length = 5000 := by
    simp only [natCodec, List.length_replicate]
  have hlen2 : (natCodec.encodeZlib (0 : Nat)).length = 0 := by
    simp only [natCodec, List.length_replicate]
  have e1 : ((5000 : Nat) + 5) % U32 = 5005 := by norm_num [U32]
  have e2 : ((0 : Nat) + 5) % U32 = 5 := by norm_num [U32]
  have hfp1m : (find_place (AnvilRegion.new file0) 0 0 5005).2 = ⟨2, 2, 0⟩ := by
    decide
  have hfp1bm : (find_place (AnvilRegion.new file0) 0 0 5005).1.used_sectors =
      [true, true, true, true] := by decide
  have hfp1sz : (find_place (AnvilRegion.new file0) 0 0 5005).1.file.size =
      16384 := by decide
  have hm1 : (write_chunk_body natCodec (AnvilRegion.new file0) 0 0 5000
      11).chunks_metadata (metadata_index 0 0) = ⟨2, 2, 11⟩ := by
    rw [write_chunk_body_chunks_metadata_self, hlen1, e1, hfp1m]
    decide
  have hbm1 : (write_chunk_body natCodec (AnvilRegion.new file0) 0 0 5000
      11).used_sectors = [true, true, true, true] := by
    rw [write_chunk_body_used_sectors, hlen1, e1, hfp1bm]
  have hsz1 : (write_chunk_body natCodec (AnvilRegion.new file0) 0 0 5000
      11).file.size = 16384 := by
    rw [write_chunk_body_size, hlen1, e1, hfp1m, hfp1sz]
    decide
  have hcongr := find_place_congr
    (write_chunk_body natCodec (AnvilRegion.new file0) 0 0 5000 11)
    ⟨⟨fun _ => 0, 16384⟩, fun _ => ⟨2, 2, 11⟩, [true, true, true, true]⟩
    0 0 5 (by rw [hm1]) (by rw [hbm1]) (by rw [hsz1])
  have hkey : (find_place ⟨⟨fun _ => 0, 16384⟩, fun _ => ⟨2, 2, 11⟩,
      [true, true, true, true]⟩ 0 0 5).2 = ⟨1, 1, 0⟩ := by decide
  refine ⟨_, _,
    write_chunk_ok natCodec (AnvilRegion.new file0) 0 0 5000 11
      (by rw [hlen1]; decide),
    write_chunk_ok natCodec
      (write_chunk_body natCodec (AnvilRegion.new file0) 0 0 5000 11) 0 0 0 12
      (by rw [hlen2]; decide), ?_⟩
  rw [write_chunk_body_chunks_metadata_self, hlen2, e2, hcongr.1, hkey]
  decide

/-- C4: on a fresh region, writing a 1-sector payload to slot `(0,0)` and
then overwriting it with a 2-sector payload takes the extend path with one
trailing free sector: the slot ends up owning run `[2, 4)`, but only the
newly pushed sector 3 is marked in the bitmap - sector 2 sits inside a
live run with its bit clear, so the set bits are `{0,1,3}` while
`{0,1} ∪ runs = {0,1,2,3}`. -/
theorem c4_bitmap_misses_run_sector_eval :
    ∃ r1 r2,
      write_chunk natCodec (AnvilRegion.new file0) 0 0 0 21 = .ok r1 ∧
      write_chunk natCodec r1 0 0 5000 22 = .ok r2 ∧
      r2.chunks_metadata (metadata_index 0 0) = ⟨2, 2, 22⟩ ∧
      r2.used_sectors = [true, true, false, true] := by
  have hlen1 : (natCodec.encodeZlib (0 : Nat)).length = 0 := by
    simp only [natCodec, List.length_replicate]
  have hlen2 : (natCodec.encodeZlib (5000 : Nat)).length = 5000 := by
    simp only [natCodec, List.length_replicate]
  have e1 : ((0 : Nat) + 5) % U32 = 5 := by norm_num [U32]
  have e2 : ((5000 : Nat) + 5) % U32 = 5005 := by norm_num [U32]
  have hfp1m : (find_place (AnvilRegion.new file0) 0 0 5).2 = ⟨2, 1, 0⟩ := by
    decide
  have hfp1bm : (find_place (AnvilRegion.new file0) 0 0 5).1.used_sectors =
      [true, true, true] := by decide
  have hfp1sz : (find_place (AnvilRegion.new file0) 0 0 5).1.file.size =
      12288 := by decide
  have hm1 : (write_chunk_body natCodec (AnvilRegion.new file0) 0 0 0
      21).chunks_metadata (metadata_index 0 0) = ⟨2, 1, 21⟩ := by
    rw [write_chunk_body_chunks_metadata_self, hlen1, e1, hfp1m]
    decide
  have hbm1 : (write_chunk_body natCodec (AnvilRegion.new file0) 0 0 0
      21).used_sectors = [true, true, true] := by
    rw [write_chunk_body_used_sectors, hlen1, e1, hfp1bm]
  have hsz1 : (write_chunk_body natCodec (AnvilRegion.new file0) 0 0 0
      21).file.size = 12288 := by
    rw [write_chunk_body_size, hlen1, e1, hfp1m, hfp1sz]
    decide
  have hcongr := find_place_congr
    (write_chunk_body natCodec (AnvilRegion.new file0) 0 0 0 21)
    ⟨⟨fun _ => 0, 12288⟩, fun _ => ⟨2, 1, 21⟩, [true, true, true]⟩
    0 0 5005 (by rw [hm1]) (by rw [hbm1]) (by rw [hsz1])
  have hkeym : (find_place ⟨⟨fun _ => 0, 12288⟩, fun _ => ⟨2, 1, 21⟩,
      [true, true, true]⟩ 0 0 5005).2 = ⟨2, 2, 0⟩ := by decide
  have hkeybm : (find_place ⟨⟨fun _ => 0, 12288⟩, fun _ => ⟨2, 1, 21⟩,
      [true, true, true]⟩ 0 0 5005).1.used_sectors =
      [true, true, false, true] := by decide
  refine ⟨_, _,
    write_chunk_ok natCodec (AnvilRegion.new file0) 0 0 0 21
      (by rw [hlen1]; decide),
    write_chunk_ok natCodec
      (write_chunk_body natCodec (AnvilRegion.new file0) 0 0 0 21) 0 0 5000 22
      (by rw [hlen2]; decide), ?_, ?_⟩
  · rw [write_chunk_body_chunks_metadata_self, hlen2, e2, hcongr.1, hkeym]
    decide
  · rw [write_chunk_body_used_sectors, hlen2, e2, hcongr.2.1, hkeybm]

/-- C5: two consecutive writes to the same slot whose stored payloads need
the same number of sectors (equal `stored_len / 4096`): the second write
passes the cap, reuses the slot's `sector_index`, leaves the sector bitmap
untouched, and the file length does not grow. -/
theorem c5_inplace_overwrite {Tag : Type} (c : NbtCodec Tag)
    (r0 : AnvilRegion) (x z : Nat) (t1 t2 : Tag) (n1 n2 : Nat)
    (hx : x < 32) (hz : z < 32)
    (h1 : (c.encodeZlib t1).length + 5 ≤ CHUNK_MAXIMUM_BYTES_LENGTH)
    (h2 : (c.encodeZlib t2).length + 5 ≤ CHUNK_MAXIMUM_BYTES_LENGTH)
    (hreq : ((c.encodeZlib t1).length + 5) / 4096 =
      ((c.encodeZlib t2).length + 5) / 4096) :
    ∃ r1 r2,
      write_chunk c r0 x z t1 n1 = .ok r1 ∧
      write_chunk c r1 x z t2 n2 = .ok r2 ∧
      (r2.chunks_metadata (metadata_index x z)).sector_index =
        (r1.chunks_metadata (metadata_index x z)).sector_index ∧
      r2.used_sectors = r1.used_sectors ∧
      r2.file.size = r1.file.size := by
  have hcapU : CHUNK_MAXIMUM_BYTES_LENGTH < U32 := by decide
  have hu1 : ((c.encodeZlib t1).length + 5) % U32 = (c.encodeZlib t1).length + 5 :=
    Nat.mod_eq_of_lt (by omega)
  have hu2 : ((c.encodeZlib t2).length + 5) % U32 = (c.encodeZlib t2).length + 5 :=
    Nat.mod_eq_of_lt (by omega)
  have hsr : sectorsRequired (((c.encodeZlib t1).length + 5) % U32) =
      sectorsRequired (((c.encodeZlib t2).length + 5) % U32) := by
    rw [hu1, hu2]
    simp only [sectorsRequired]
    rw [hreq]
  have hm1 := write_chunk_body_chunks_metadata_self c r0 x z t1 n1
  have hsec : ((write_chunk_body c r0 x z t1 n1).chunks_metadata
      (metadata_index x z)).sectors =
      sectorsRequired (((c.encodeZlib t2).length + 5) % U32) := by
    rw [hm1, ← hsr]
    exact find_place_sectors r0 x z _
  have hreuse := find_place_reuse (write_chunk_body c r0 x z t1 n1) x z
    (((c.encodeZlib t2).length + 5) % U32) hsec
  have hpad1 : (((c.encodeZlib t1).length + 5) % U32) % 65536 % 4096 =
      ((c.encodeZlib t1).length + 5) % 4096 := by
    rw [Nat.mod_mod_of_dvd _ (by decide : (65536 : Nat) ∣ U32),
      Nat.mod_mod_of_dvd _ (by norm_num : (4096 : Nat) ∣ 65536)]
  have hpad2 : (((c.encodeZlib t2).length + 5) % U32) % 65536 % 4096 =
      ((c.encodeZlib t2).length + 5) % 4096 := by
    rw [Nat.mod_mod_of_dvd _ (by decide : (65536 : Nat) ∣ U32),
      Nat.mod_mod_of_dvd _ (by norm_num : (4096 : Nat) ∣ 65536)]
  have hsi : ((write_chunk_body c r0 x z t1 n1).chunks_metadata
      (metadata_index x z)).sector_index =
      (find_place r0 x z (((c.encodeZlib t1).length + 5) % U32)).2.sector_index := by
    rw [hm1]
  refine ⟨_, _, write_chunk_ok c r0 x z t1 n1 h1,
    write_chunk_ok c (write_chunk_body c r0 x z t1 n1) x z t2 n2 h2, ?_, ?_, ?_⟩
  · rw [write_chunk_body_chunks_metadata_self c (write_chunk_body c r0 x z t1 n1)
      x z t2 n2, hreuse]
  · rw [write_chunk_body_used_sectors c (write_chunk_body c r0 x z t1 n1)
      x z t2 n2, hreuse]
  · rw [write_chunk_body_size c (write_chunk_body c r0 x z t1 n1) x z t2 n2,
      hreuse]
    have hs1 := write_chunk_body_size c r0 x z t1 n1
    have hd1 := Nat.div_add_mod ((c.encodeZlib t1).length + 5) 4096
    have hd2 := Nat.div_add_mod ((c.encodeZlib t2).length + 5) 4096
    have hlt1 : ((c.encodeZlib t1).length + 5) % 4096 < 4096 :=
      Nat.mod_lt _ (by norm_num)
    have hlt2 : ((c.encodeZlib t2).length + 5) % 4096 < 4096 :=
      Nat.mod_lt _ (by norm_num)
    rw [hpad1] at hs1
    show max (max (max (max
        (write_chunk_body c r0 x z t1 n1).file.size _) _) _) _ =
      (write_chunk_body c r0 x z t1 n1).file.size
    rw [hpad2, hsi, hs1]
    omega

theorem c5_inplace_overwrite_witness :
    ∃ r1 r2,
      write_chunk natCodec (AnvilRegion.new file0) 0 0 0 41 = .ok r1 ∧
      write_chunk natCodec r1 0 0 0 42 = .ok r2 ∧
      (r2.chunks_metadata (metadata_index 0 0)).sector_index =
        (r1.chunks_metadata (metadata_index 0 0)).sector_index ∧
      r2.used_sectors = r1.used_sectors ∧
      r2.file.size = r1.file.size :=
  c5_inplace_overwrite natCodec (AnvilRegion.new file0) 0 0 0 0 41 42
    (by decide) (by decide) (by decide) (by decide) rfl

/-- `['.'].intercalate` on exactly four pieces, written out. -/
theorem intercalate_four (a b c d : List Char) :
    List.intercalate ['.'] [a, b, c, d] =
      a ++ '.' :: (b ++ '.' :: (c ++ '.' :: d)) := by
  simp [List.intercalate, List.intersperse]

/-- Every character of an accepted decimal token is a digit. -/
theorem decimalTokenOk_digits {l : List Char} (h : decimalTokenOk l = true) :
    ∀ ch ∈ l, ch.isDigit := by
  have := (Bool.and_eq_true _ _).mp h
  have h2 := (Bool.and_eq_true _ _).mp this.1
  simpa using h2.2

/-- An accepted integer token never contains a `.`. -/
theorem strict_parse_no_dot {a : List Char} {v : Int}
    (h : strict_parse_i32 a = some v) : '.' ∉ a := by
  intro hm
  unfold strict_parse_i32 at h
  split at h
  · next rest =>
    split at h
    · next hc =>
      rw [List.mem_cons] at hm
      rcases hm with hm | hm
      · exact absurd hm (by decide)
      · have := decimalTokenOk_digits hc.1 '.' hm
        exact absurd this (by decide)
    · exact absurd h (by simp)
  · next =>
    split at h
    · next hc =>
      have := decimalTokenOk_digits hc.1 '.' hm
      exact absurd this (by decide)
    · exact absurd h (by simp)

/-- C9, the claim as stated is false: `"r.-0.0.mca"` belongs to the
claimed regular language `r\.-?(0|[1-9][0-9]*)\.-?(0|[1-9][0-9]*)\.mca`
(its tokens parse as `i32`), yet `parse_region_file_name` rejects it: the
strict integer parser allows a leading `-` only for negative values, so
the token `-0` is refused. -/
theorem c9_counterexample :
    parse_region_file_name ['r', '.', '-', '0', '.', '0', '.', 'm', 'c', 'a'] =
      none ∧
    claimed_filename_language ['r', '.', '-', '0', '.', '0', '.', 'm', 'c', 'a'] =
      some (0, 0) := by
  decide

/-- C9 (amended): `parse_region_file_name` accepts exactly the strings
`r.<t>.<t>.mca` whose integer tokens the strict signed-decimal parser
accepts - the claimed language minus the `-0` tokens - and maps each to
its `(i32, i32)` pair; every other string is rejected. -/
theorem c9_amended_language (s : List Char) (x z : Int) :
    parse_region_file_name s = some (x, z) ↔
      ∃ a b, s = 'r' :: '.' :: (a ++ '.' :: (b ++ '.' :: ['m', 'c', 'a'])) ∧
        strict_parse_i32 a = some x ∧ strict_parse_i32 b = some z := by
  constructor
  · intro h
    unfold parse_region_file_name at h
    rcases hsp : s.splitOn '.' with _ | ⟨t0, rest0⟩
    · rw [hsp] at h
      simp at h
    rw [hsp] at h
    dsimp only at h
    by_cases ht0 : t0 = ['r']
    swap
    · rw [if_neg ht0] at h
      simp at h
    rw [if_pos ht0] at h
    rcases rest0 with _ | ⟨t1, rest1⟩
    · simp at h
    dsimp only at h
    rcases hx1 : strict_parse_i32 t1 with _ | x1
    all_goals rw [hx1] at h
    · simp at h
    dsimp only at h
    rcases rest1 with _ | ⟨t2, rest2⟩
    · simp at h
    dsimp only at h
    rcases hz1 : strict_parse_i32 t2 with _ | z1
    all_goals rw [hz1] at h
    · simp at h
    dsimp only at h
    rcases rest2 with _ | ⟨t3, rest3⟩
    · simp at h
    dsimp only at h
    by_cases ht3 : t3 = ['m', 'c', 'a']
    swap
    · rw [if_neg ht3] at h
      simp at h
    rw [if_pos ht3] at h
    by_cases hr3 : rest3 = []
    swap
    · rw [if_neg hr3] at h
      simp at h
    rw [if_pos hr3] at h
    simp only [Option.some.injEq, Prod.mk.injEq] at h
    subst ht0 ht3 hr3
    refine ⟨t1, t2, ?_, by rw [hx1, h.1], by rw [hz1, h.2]⟩
    have hs0 : List.intercalate ['.'] (s.splitOn '.') = s :=
      List.intercalate_splitOn s '.'
    have hs := hs0.symm
    rw [hsp, intercalate_four] at hs
    simpa using hs
  · rintro ⟨a, b, rfl, ha, hb⟩
    have hnd : ∀ l ∈ [['r'], a, b, ['m', 'c', 'a']], ('.' : Char) ∉ l := by
      intro l hl
      rw [List.mem_cons, List.mem_cons, List.mem_cons, List.mem_cons] at hl
      rcases hl with rfl | rfl | rfl | rfl | hl
      · decide
      · exact strict_parse_no_dot ha
      · exact strict_parse_no_dot hb
      · decide
      · simp at hl
    have hsp := List.splitOn_intercalate [['r'], a, b, ['m', 'c', 'a']] '.' hnd
      (by simp)
    rw [intercalate_four] at hsp
    simp only [List.cons_append, List.nil_append] at hsp
    unfold parse_region_file_name
    rw [hsp]
    simp [ha, hb]

theorem c9_amended_language_witness :
    parse_region_file_name ['r', '.', '5', '.', '-', '3', '.', 'm', 'c', 'a'] =
      some (5, -3) :=
  (c9_amended_language ['r', '.', '5', '.', '-', '3', '.', 'm', 'c', 'a']
      5 (-3)).mpr
    ⟨['5'], ['-', '3'], rfl, by decide, by decide⟩

end AnvilSpec
